import Mathlib

/-!
Shallow embedding of the scene helper module
`mp_dash_components/helpers/scene.py` of crystaltoolkit: the primitive
dataclasses, `scene_to_json` (which is `dataclasses.asdict` followed by the
inner `remove_defaults` pruning pass) and `merge_primitives`.

Modelling conventions: Python floats are rationals, Python `None` is
`Option.none`, Python exceptions are `Except.error` carrying the exception
text, Python dicts that are built by `asdict` are ordered key/value lists.
-/

namespace CT

/-- The `ellipsoids` dictionary carried by `Spheres`: two keys,
`rotations` and `scales`, each a list of vectors. -/
structure Ellipsoids where
  rotations : List (List ℚ)
  scales : List (List ℚ)
  deriving DecidableEq

/-- The `Spheres` dataclass.  Field order and constructor defaults follow the
source (`color=None`, `radius=None`, `phiStart=0`, `phiEnd=None`,
`ellipsoids=None`); the frozen `type` field is the constant `"spheres"` and is
produced by `primEntries` below. -/
structure Spheres where
  positions : List (List ℚ)
  color : Option String := Option.none
  radius : Option ℚ := Option.none
  phiStart : Option ℚ := Option.some 0
  phiEnd : Option ℚ := Option.none
  ellipsoids : Option Ellipsoids := Option.none
  deriving DecidableEq

/-- The `Cylinders` dataclass (`type` is the constant `"cylinders"`). -/
structure Cylinders where
  positionPairs : List (List (List ℚ))
  color : Option String := Option.none
  radius : Option ℚ := Option.none
  deriving DecidableEq

/-- The `Cubes` dataclass.  Its frozen `type` field is the constant
`"spheres"` in the source (not `"cubes"`); see `primType`. -/
structure Cubes where
  positions : List (List ℚ)
  color : Option String := Option.none
  width : Option ℚ := Option.none
  deriving DecidableEq

/-- The `Lines` dataclass (`type` is the constant `"lines"`). -/
structure Lines where
  positions : List (List ℚ)
  color : Option String := Option.none
  lineWidth : Option ℚ := Option.none
  scale : Option ℚ := Option.none
  dashSize : Option ℚ := Option.none
  gapSize : Option ℚ := Option.none
  deriving DecidableEq

/-- The `Surface` dataclass (`type` is the constant `"surface"`). -/
structure Surface where
  positions : List (List ℚ)
  normals : Option (List (List ℚ)) := Option.none
  color : Option String := Option.none
  opacity : Option ℚ := Option.none
  deriving DecidableEq

/-- The `Convex` dataclass (`type` is the constant `"convex"`). -/
structure Convex where
  positions : List (List ℚ)
  color : Option String := Option.none
  opacity : Option ℚ := Option.none
  deriving DecidableEq

/-- The closed set of geometric primitives defined in the module.
`Arrows` and `Labels` are tag-only placeholders carrying no data. -/
inductive Primitive where
  | spheres : Spheres → Primitive
  | cylinders : Cylinders → Primitive
  | cubes : Cubes → Primitive
  | lines : Lines → Primitive
  | surface : Surface → Primitive
  | convex : Convex → Primitive
  | arrows : Primitive
  | labels : Primitive
  deriving DecidableEq

/-- The frozen `type` discriminant field of each dataclass.  Note that in the
source `Cubes` declares `type = field(default='spheres', init=False)`, the
same tag as `Spheres`. -/
def primType : Primitive → String
  | Primitive.spheres _ => "spheres"
  | Primitive.cylinders _ => "cylinders"
  | Primitive.cubes _ => "spheres"
  | Primitive.lines _ => "lines"
  | Primitive.surface _ => "surface"
  | Primitive.convex _ => "convex"
  | Primitive.arrows => "arrows"
  | Primitive.labels => "labels"

/-- JSON-compatible Python values as produced by `dataclasses.asdict`:
`None`, numbers, strings, lists and (ordered) dicts. -/
inductive PyVal where
  | none : PyVal
  | num : ℚ → PyVal
  | str : String → PyVal
  | list : List PyVal → PyVal
  | dict : List (String × PyVal) → PyVal

/-- A vector of floats as a Python list. -/
def vecVal (v : List ℚ) : PyVal := PyVal.list (v.map PyVal.num)

/-- A list of vectors as a Python list of lists. -/
def vecsVal (vs : List (List ℚ)) : PyVal := PyVal.list (vs.map vecVal)

/-- A list of vector pairs as a Python list of lists of lists. -/
def pairsVal (ps : List (List (List ℚ))) : PyVal := PyVal.list (ps.map vecsVal)

/-- An optional float field value. -/
def optNum : Option ℚ → PyVal
  | Option.some q => PyVal.num q
  | Option.none => PyVal.none

/-- An optional string field value. -/
def optStrVal : Option String → PyVal
  | Option.some s => PyVal.str s
  | Option.none => PyVal.none

/-- An optional list-of-vectors field value (`Surface.normals`). -/
def optVecsVal : Option (List (List ℚ)) → PyVal
  | Option.some vs => vecsVal vs
  | Option.none => PyVal.none

/-- An optional ellipsoids dictionary field value. -/
def ellVal : Option Ellipsoids → PyVal
  | Option.some e =>
      PyVal.dict [("rotations", vecsVal e.rotations), ("scales", vecsVal e.scales)]
  | Option.none => PyVal.none

/-- `dataclasses.asdict` of one primitive: its fields, in declaration order,
ending with the frozen `type` tag. -/
def primEntries : Primitive → List (String × PyVal)
  | Primitive.spheres s =>
      [("positions", vecsVal s.positions), ("color", optStrVal s.color),
       ("radius", optNum s.radius), ("phiStart", optNum s.phiStart),
       ("phiEnd", optNum s.phiEnd), ("ellipsoids", ellVal s.ellipsoids),
       ("type", PyVal.str "spheres")]
  | Primitive.cylinders c =>
      [("positionPairs", pairsVal c.positionPairs), ("color", optStrVal c.color),
       ("radius", optNum c.radius), ("type", PyVal.str "cylinders")]
  | Primitive.cubes c =>
      [("positions", vecsVal c.positions), ("color", optStrVal c.color),
       ("width", optNum c.width), ("type", PyVal.str "spheres")]
  | Primitive.lines l =>
      [("positions", vecsVal l.positions), ("color", optStrVal l.color),
       ("lineWidth", optNum l.lineWidth), ("scale", optNum l.scale),
       ("dashSize", optNum l.dashSize), ("gapSize", optNum l.gapSize),
       ("type", PyVal.str "lines")]
  | Primitive.surface s =>
      [("positions", vecsVal s.positions), ("normals", optVecsVal s.normals),
       ("color", optStrVal s.color), ("opacity", optNum s.opacity),
       ("type", PyVal.str "surface")]
  | Primitive.convex s =>
      [("positions", vecsVal s.positions), ("color", optStrVal s.color),
       ("opacity", optNum s.opacity), ("type", PyVal.str "convex")]
  | Primitive.arrows => [("type", PyVal.str "arrows")]
  | Primitive.labels => [("type", PyVal.str "labels")]

/-- `dataclasses.asdict` of one primitive, as a dict. -/
def primDict (p : Primitive) : PyVal := PyVal.dict (primEntries p)

/-- A node of the scene tree: either a primitive or a `Scene` dataclass,
whose `contents` list may mix primitives and nested scenes. -/
inductive SNode where
  | prim : Primitive → SNode
  | scene : String → List SNode → SNode

mutual

/-- `dataclasses.asdict` over the scene tree: a `Scene` becomes the dict
with keys `name` and `contents` (in field declaration order), recursing
through the contents list. -/
def asdict : SNode → PyVal
  | SNode.prim p => primDict p
  | SNode.scene nm contents =>
      PyVal.dict [("name", PyVal.str nm), ("contents", PyVal.list (asdictList contents))]

/-- `asdict` mapped over a contents list. -/
def asdictList : List SNode → List PyVal
  | [] => []
  | n :: rest => asdict n :: asdictList rest

end

mutual

/-- `scene_to_json.remove_defaults`: prune a dict's items, returning `None`
in place of a dict all of whose items were pruned away (the
`return trimmed_dict or None` line).  The source applies it only to dicts
(`if isinstance(v, dict)`); on every other value — lists included — it is the
identity here, which makes applying it to every item's value below equivalent
to the source's guarded call. -/
def remove_defaults : PyVal → PyVal
  | PyVal.dict kvs =>
      match pruneDict kvs with
      | [] => PyVal.none
      | l => PyVal.dict l
  | PyVal.none => PyVal.none
  | PyVal.num q => PyVal.num q
  | PyVal.str s => PyVal.str s
  | PyVal.list xs => PyVal.list xs

/-- The loop of `scene_to_json.remove_defaults` over a dict's items: a value
that is itself a dict is recursively pruned first (an emptied dict becomes
`None`); any `None` value is then dropped; every other value — lists
included — is kept untouched.  The source recurses only into dict values,
never into list elements. -/
def pruneDict : List (String × PyVal) → List (String × PyVal)
  | [] => []
  | (k, v) :: rest =>
      match remove_defaults v with
      | PyVal.none => pruneDict rest
      | w => (k, w) :: pruneDict rest

end

/-- `scene_to_json`: `remove_defaults(asdict(scene))`. -/
def scene_to_json (n : SNode) : PyVal := remove_defaults (asdict n)

/-! ### The merger, `merge_primitives` -/

/-- The text of the `TypeError` Python raises when an f-string formats `None`
with the `:.2f` format spec. -/
def fmtNoneErr : String := "TypeError: unsupported format string passed to NoneType"

/-- The text of the `TypeError` Python raises when `itertools.chain.from_iterable`
iterates a `None` element. -/
def iterNoneErr : String := "TypeError: NoneType object is not iterable"

/-- `q * 100` rounded to the nearest integer, ties to even, as Python's float
formatting rounds.  Computed on the numerator and denominator directly:
with `n = num * 100`, `d = den`, `f = ⌊n / d⌋` and remainder `r = n - f * d`,
the fractional part `r / d` is compared against `1 / 2` via `2 * r` vs `d`. -/
def roundHalfEven100 (q : ℚ) : ℤ :=
  let n : ℤ := q.num * 100
  let d : ℤ := (q.den : ℤ)
  let f : ℤ := Int.fdiv n d
  let r : ℤ := n - f * d
  if 2 * r < d then f
  else if d < 2 * r then f + 1
  else if f % 2 = 0 then f else f + 1

/-- Two-digit zero-padded rendering of a value below 100. -/
def pad2 (m : ℕ) : String := if m < 10 then "0" ++ toString m else toString m

/-- Python's `:.2f` format of a (non-`None`) float: round to two decimals,
render with exactly two decimal digits (a negative value rounding to zero
keeps its minus sign, as `"%.2f" % -0.001` does). -/
def fmt2 (q : ℚ) : String :=
  let n : ℤ := roundHalfEven100 q
  let sign := if q.num < 0 then "-" else ""
  let m := n.natAbs
  sign ++ toString (m / 100) ++ "." ++ pad2 (m % 100)

/-- Python's `str`/f-string rendering of an optional color: `None` renders
as the string `"None"`. -/
def optColorStr : Option String → String
  | Option.some c => c
  | Option.none => "None"

/-- Format an optional float with `:.2f`: formatting `None` raises
`TypeError`, exactly as in `f"...{primitive.radius:.2f}..."`. -/
def fmtReq : Option ℚ → Except String String
  | Option.some q => Except.ok (fmt2 q)
  | Option.none => Except.error fmtNoneErr

/-- The grouping key
`f"{color}_{radius:.2f}_{phiStart:.2f}_{phiEnd:.2f}"` built for a `Spheres`;
the three float fields are formatted left to right and formatting a `None`
raises. -/
def sphereKey (s : Spheres) : Except String String :=
  match fmtReq s.radius with
  | Except.error e => Except.error e
  | Except.ok r =>
    match fmtReq s.phiStart with
    | Except.error e => Except.error e
    | Except.ok ps =>
      match fmtReq s.phiEnd with
      | Except.error e => Except.error e
      | Except.ok pe =>
          Except.ok (optColorStr s.color ++ "_" ++ r ++ "_" ++ ps ++ "_" ++ pe)

/-- The grouping key `f"{color}_{radius:.2f}"` built for a `Cylinders`. -/
def cylKey (c : Cylinders) : Except String String :=
  match fmtReq c.radius with
  | Except.error e => Except.error e
  | Except.ok r => Except.ok (optColorStr c.color ++ "_" ++ r)

/-- Append a member to its key's group in an insertion-ordered dict
(`defaultdict(list)` indexed by string keys). -/
def insertGroup (key : String) (x : α) : List (String × List α) → List (String × List α)
  | [] => [(key, [x])]
  | (k, xs) :: rest =>
      if k = key then (k, xs ++ [x]) :: rest
      else (k, xs) :: insertGroup key x rest

/-- The three accumulators of `merge_primitives`' classification loop:
the `spheres` and `cylinders` insertion-ordered group dicts and the
pass-through `remainder` list. -/
structure MergeAcc where
  spheres : List (String × List Spheres)
  cylinders : List (String × List Cylinders)
  remainder : List Primitive

/-- One iteration of the classification loop: a `Spheres` (respectively
`Cylinders`) has its key built — which may raise — and joins its group;
every other primitive is appended to the remainder.  Dispatch is by
`isinstance`, i.e. by the concrete variant, never by the `type` tag. -/
def groupStep (st : MergeAcc) : Primitive → Except String MergeAcc
  | Primitive.spheres s =>
      match sphereKey s with
      | Except.error e => Except.error e
      | Except.ok k => Except.ok { st with spheres := insertGroup k s st.spheres }
  | Primitive.cylinders c =>
      match cylKey c with
      | Except.error e => Except.error e
      | Except.ok k => Except.ok { st with cylinders := insertGroup k c st.cylinders }
  | p => Except.ok { st with remainder := st.remainder ++ [p] }

/-- The whole classification loop over the input list. -/
def groupAll (st : MergeAcc) : List Primitive → Except String MergeAcc
  | [] => Except.ok st
  | p :: rest =>
      match groupStep st p with
      | Except.error e => Except.error e
      | Except.ok st2 => groupAll st2 rest

/-- `list(itertools.chain.from_iterable(xs))` where each element is either a
list or `None`: a `None` element raises `TypeError`, otherwise the lists are
concatenated.  This is how the per-member ellipsoid contributions
`sphere.ellipsoids['rotations'] if sphere.ellipsoids else None` are flattened. -/
def chainFromIterable : List (Option (List α)) → Except String (List α)
  | [] => Except.ok []
  | Option.none :: _ => Except.error iterNoneErr
  | Option.some xs :: rest =>
      match chainFromIterable rest with
      | Except.error e => Except.error e
      | Except.ok ys => Except.ok (xs ++ ys)

/-- Merge one key's `Spheres` group: concatenate positions, flatten the
ellipsoid rotation and scale contributions (raising if any member's
`ellipsoids` is `None`), keep the merged ellipsoids only if some flattened
rotation entry is truthy (a non-empty list), and take the styling fields from
the group's first member. -/
def mergeSphereGroup : List Spheres → Except String Spheres
  | [] => Except.error "IndexError: list index out of range"
  | s0 :: rest =>
      let l := s0 :: rest
      match chainFromIterable (l.map fun s => s.ellipsoids.map Ellipsoids.rotations) with
      | Except.error e => Except.error e
      | Except.ok rots =>
        match chainFromIterable (l.map fun s => s.ellipsoids.map Ellipsoids.scales) with
        | Except.error e => Except.error e
        | Except.ok scls =>
            Except.ok
              { positions := (l.map Spheres.positions).flatten
                color := s0.color
                radius := s0.radius
                phiStart := s0.phiStart
                phiEnd := s0.phiEnd
                ellipsoids :=
                  if rots.any (fun v => !v.isEmpty) then Option.some ⟨rots, scls⟩
                  else Option.none }

/-- Merge one key's `Cylinders` group: concatenate `positionPairs`, take
`color` and `radius` from the first member. -/
def mergeCylGroup : List Cylinders → Except String Cylinders
  | [] => Except.error "IndexError: list index out of range"
  | c0 :: rest =>
      Except.ok
        { positionPairs := ((c0 :: rest).map Cylinders.positionPairs).flatten
          color := c0.color
          radius := c0.radius }

/-- Effectful map over a list, short-circuiting on the first raised error. -/
def mapME (f : α → Except String β) : List α → Except String (List β)
  | [] => Except.ok []
  | a :: rest =>
      match f a with
      | Except.error e => Except.error e
      | Except.ok b =>
        match mapME f rest with
        | Except.error e => Except.error e
        | Except.ok bs => Except.ok (b :: bs)

/-- Merge one keyed sphere group into a `Primitive` (one step of the
`new_spheres` loop). -/
def mergeSphereGroupP (g : String × List Spheres) : Except String Primitive :=
  match mergeSphereGroup g.2 with
  | Except.error e => Except.error e
  | Except.ok s => Except.ok (Primitive.spheres s)

/-- Merge one keyed cylinder group into a `Primitive` (one step of the
`new_cylinders` loop). -/
def mergeCylGroupP (g : String × List Cylinders) : Except String Primitive :=
  match mergeCylGroup g.2 with
  | Except.error e => Except.error e
  | Except.ok c => Except.ok (Primitive.cylinders c)

/-- `merge_primitives`: classify the input into sphere groups, cylinder
groups and a remainder, merge each group, and return
`new_spheres + new_cylinders + remainder`. -/
def merge_primitives (ps : List Primitive) : Except String (List Primitive) :=
  match groupAll ⟨[], [], []⟩ ps with
  | Except.error e => Except.error e
  | Except.ok acc =>
    match mapME mergeSphereGroupP acc.spheres with
    | Except.error e => Except.error e
    | Except.ok ns =>
      match mapME mergeCylGroupP acc.cylinders with
      | Except.error e => Except.error e
      | Except.ok nc => Except.ok (ns ++ nc ++ acc.remainder)

/-! ### Hash keys of `Cylinders` and `Cubes` -/

/-- Python's `str` of an optional float as used inside
`hash(f"{self.color}_{self.radius}")`; `None` renders as `"None"`, and a
float's decimal rendering is abstracted by the rational's canonical string
(equal values render equally, which is all the hash surface depends on). -/
def optRatStr : Option ℚ → String
  | Option.some q => toString q
  | Option.none => "None"

/-- The string underlying `Cylinders.__hash__`, which is
`hash(f"{self.color}_{self.radius}")`: Python's string hash is abstracted by
the string itself (equal strings hash equal). -/
def Cylinders.hashStr (c : Cylinders) : String :=
  optColorStr c.color ++ "_" ++ optRatStr c.radius

/-- The string underlying `Cubes.__hash__`, which is
`hash(f"{self.color}_{self.width}")`. -/
def Cubes.hashStr (c : Cubes) : String :=
  optColorStr c.color ++ "_" ++ optRatStr c.width

/-! ### Measures used to state conservation -/

/-- The multiset of position vectors carried by one primitive, counting only
`Spheres`. -/
def sPos : Primitive → Multiset (List ℚ)
  | Primitive.spheres s => (s.positions : Multiset (List ℚ))
  | _ => 0

/-- The multiset of position vectors over all `Spheres` of a list. -/
def sPosAll (ps : List Primitive) : Multiset (List ℚ) := (ps.map sPos).sum

/-- The multiset of position pairs carried by one primitive, counting only
`Cylinders`. -/
def cPairs : Primitive → Multiset (List (List ℚ))
  | Primitive.cylinders c => (c.positionPairs : Multiset (List (List ℚ)))
  | _ => 0

/-- The multiset of position pairs over all `Cylinders` of a list. -/
def cPairsAll (ps : List Primitive) : Multiset (List (List ℚ)) := (ps.map cPairs).sum

/-- The position multiset held by one sphere group. -/
def groupSpherePos (g : String × List Spheres) : Multiset (List ℚ) :=
  (g.2.map fun s => (s.positions : Multiset (List ℚ))).sum

/-- The position-pair multiset held by one cylinder group. -/
def groupCylPairs (g : String × List Cylinders) : Multiset (List (List ℚ)) :=
  (g.2.map fun c => (c.positionPairs : Multiset (List (List ℚ)))).sum

/-- All sphere positions held by a classification accumulator. -/
def accSPos (st : MergeAcc) : Multiset (List ℚ) :=
  (st.spheres.map groupSpherePos).sum + sPosAll st.remainder

/-- All cylinder position pairs held by a classification accumulator. -/
def accCPairs (st : MergeAcc) : Multiset (List (List ℚ)) :=
  (st.cylinders.map groupCylPairs).sum + cPairsAll st.remainder

/-- Whether a primitive is the `Cubes` variant. -/
def isCubes : Primitive → Bool
  | Primitive.cubes _ => true
  | _ => false

/-- The keys of a serialized dict (in order). -/
def pyKeys : PyVal → List String
  | PyVal.dict kvs => kvs.map Prod.fst
  | _ => []

/-- First-occurrence lookup among a dict's items, as Python dict access. -/
def lookupEntries (key : String) : List (String × PyVal) → Option PyVal
  | [] => Option.none
  | (k, v) :: rest => if k = key then Option.some v else lookupEntries key rest

/-- Lookup of a key on a serialized value (dicts only). -/
def pyLookup (key : String) : PyVal → Option PyVal
  | PyVal.dict kvs => lookupEntries key kvs
  | _ => Option.none

/-! ### Concrete values used in the claim theorems and witnesses -/

/-- `Spheres(positions=[[0,0,0]])`: every optional field left at its
constructor default (`radius=None`, `phiEnd=None`, `ellipsoids=None`). -/
def sphereDefault : Spheres := { positions := [[0, 0, 0]] }

/-- `Spheres(positions=[[0,0,0]], color="#fff", radius=1.0)` — the first
member of the merging example of the spec. -/
def sphereC4a : Spheres :=
  { positions := [[0, 0, 0]], color := Option.some "#fff", radius := Option.some 1 }

/-- `Spheres(positions=[[1,1,1]], color="#fff", radius=1.0)` — the second
member of the merging example of the spec. -/
def sphereC4b : Spheres :=
  { positions := [[1, 1, 1]], color := Option.some "#fff", radius := Option.some 1 }

/-- A sphere with ellipsoids and a fully formattable key. -/
def sphereEll : Spheres :=
  { positions := [[0, 0, 0]], radius := Option.some 1, phiEnd := Option.some 1,
    ellipsoids := Option.some ⟨[[1, 0, 0]], [[1, 1, 1]]⟩ }

/-- A sphere with the same grouping key as `sphereEll` but `ellipsoids=None`. -/
def sphereNoEll : Spheres :=
  { positions := [[1, 1, 1]], radius := Option.some 1, phiEnd := Option.some 1 }

/-- A sphere whose ellipsoids dictionary holds empty lists (consistent with
its empty positions list), so that merging drops the ellipsoids
(`any([])` is false). -/
def sphereDegen : Spheres :=
  { positions := [], radius := Option.some 1, phiEnd := Option.some 1,
    ellipsoids := Option.some ⟨[], []⟩ }

/-- What `merge_primitives` makes of `[sphereDegen]`: the same sphere with
`ellipsoids=None`. -/
def sphereDegenMerged : Spheres :=
  { positions := [], radius := Option.some 1, phiEnd := Option.some 1 }

/-- `Lines(positions=[[0,0,0],[1,1,1]])` with every optional field `None`. -/
def lines0 : Lines := { positions := [[0, 0, 0], [1, 1, 1]] }

/-- First sphere of the conservation witness list. -/
def sphereW1 : Spheres :=
  { positions := [[0, 0, 0]], color := Option.some "#fff", radius := Option.some 1,
    phiEnd := Option.some 1, ellipsoids := Option.some ⟨[[1, 0, 0]], [[1, 1, 1]]⟩ }

/-- Second sphere of the conservation witness list (same grouping key as
`sphereW1`). -/
def sphereW2 : Spheres :=
  { positions := [[1, 1, 1]], color := Option.some "#fff", radius := Option.some 1,
    phiEnd := Option.some 1, ellipsoids := Option.some ⟨[[0, 1, 0]], [[2, 2, 2]]⟩ }

/-- Cylinder of the conservation witness list. -/
def cylW : Cylinders :=
  { positionPairs := [[[0, 0, 0], [1, 1, 1]]], color := Option.some "#000",
    radius := Option.some 2 }

/-- Cube of the conservation witness list. -/
def cubeW : Cubes := { positions := [[5, 5, 5]] }

/-- The conservation witness input list. -/
def xsW : List Primitive :=
  [Primitive.spheres sphereW1, Primitive.cylinders cylW,
   Primitive.spheres sphereW2, Primitive.cubes cubeW]

/-- The merge of `xsW`: one merged sphere group, the cylinder, the cube. -/
def ysW : List Primitive :=
  [Primitive.spheres
     { positions := [[0, 0, 0], [1, 1, 1]], color := Option.some "#fff",
       radius := Option.some 1, phiStart := Option.some 0, phiEnd := Option.some 1,
       ellipsoids := Option.some ⟨[[1, 0, 0], [0, 1, 0]], [[1, 1, 1], [2, 2, 2]]⟩ },
   Primitive.cylinders cylW, Primitive.cubes cubeW]

/-- Cylinders with positional data, for the hash/equality counterexample. -/
def cylA : Cylinders :=
  { positionPairs := [[[0, 0, 0], [1, 1, 1]]], color := Option.some "#fff",
    radius := Option.some 1 }

/-- Cylinders agreeing with `cylA` on `(color, radius)` but with different
positional data. -/
def cylB : Cylinders :=
  { positionPairs := [], color := Option.some "#fff", radius := Option.some 1 }

/-! ## Theorems -/

/-- C1, counterexample: on the empty scene `Scene("x", [])`, `scene_to_json`
keeps the `contents` key — its value `[]` is a list, not `None`, so
`remove_defaults` does not drop it — hence the output does not contain the
key `name` only, refuting the claim as stated. -/
theorem C1_counterexample :
    scene_to_json (SNode.scene "x" []) =
      PyVal.dict [("name", PyVal.str "x"), ("contents", PyVal.list [])]
    ∧ pyKeys (scene_to_json (SNode.scene "x" [])) ≠ ["name"] :=
  ⟨rfl, by decide⟩

/-- C1, amended: for every Scene whose contents is the empty list,
`scene_to_json` returns a structure with exactly the keys `name` and
`contents`, the latter mapping to the empty list. -/
theorem C1_amended (nm : String) :
    scene_to_json (SNode.scene nm []) =
      PyVal.dict [("name", PyVal.str nm), ("contents", PyVal.list [])] := rfl

/-- C2: `merge_primitives` is not total — on the single default-constructed
primitive `Spheres(positions=[[0,0,0]])` (whose `radius` is unset, i.e.
`None`), building the grouping key formats `None` with `:.2f` and raises
`TypeError`, refuting «every operation is total». -/
theorem C2_merge_raises :
    merge_primitives [Primitive.spheres sphereDefault] = Except.error fmtNoneErr := rfl

/-- C3: a null-valued field of a primitive nested inside a Scene's contents
list is NOT removed — `remove_defaults` recurses into dict values only, never
into list elements — so the serialized scene keeps `color`, `lineWidth`,
`scale`, `dashSize` and `gapSize` as explicit `None` entries on the nested
`Lines`; only a primitive serialized at top level is pruned to
`positions` and `type`. -/
theorem C3_nested_nones_kept :
    scene_to_json (SNode.scene "s" [SNode.prim (Primitive.lines lines0)]) =
      PyVal.dict [("name", PyVal.str "s"),
        ("contents", PyVal.list [PyVal.dict
          [("positions", vecsVal [[0, 0, 0], [1, 1, 1]]), ("color", PyVal.none),
           ("lineWidth", PyVal.none), ("scale", PyVal.none),
           ("dashSize", PyVal.none), ("gapSize", PyVal.none),
           ("type", PyVal.str "lines")]])]
    ∧ scene_to_json (SNode.prim (Primitive.lines lines0)) =
        PyVal.dict [("positions", vecsVal [[0, 0, 0], [1, 1, 1]]),
                    ("type", PyVal.str "lines")] :=
  ⟨rfl, rfl⟩

/-- C4: on the spec's own example list
`[Spheres(positions=[[0,0,0]], color="#fff", radius=1.0),
Spheres(positions=[[1,1,1]], color="#fff", radius=1.0)]`, `merge_primitives`
does not return one merged `Spheres`: both members leave `phiEnd` at its
default `None`, and the grouping key's `f"...{phiEnd:.2f}"` raises
`TypeError`. -/
theorem C4_example_raises :
    merge_primitives [Primitive.spheres sphereC4a, Primitive.spheres sphereC4b] =
      Except.error fmtNoneErr := rfl

/-- C5: when a `Spheres` group mixes members with and without ellipsoids, the
member lacking ellipsoids contributes a bare `None` (not a null-filled list)
to `chain.from_iterable`, which raises `TypeError` instead of producing the
claimed null-filled concatenation. -/
theorem C5_mixed_ellipsoids_raises :
    merge_primitives [Primitive.spheres sphereEll, Primitive.spheres sphereNoEll] =
      Except.error iterNoneErr := rfl

/-- C7: merging is not idempotent — `merge_primitives [sphereDegen]` succeeds
and drops the degenerate ellipsoids (no truthy rotation entry), but re-merging
its own output raises `TypeError`, because the merged sphere's
`ellipsoids=None` is fed to `chain.from_iterable` as a bare `None`. -/
theorem C7_idempotence_breaks :
    merge_primitives [Primitive.spheres sphereDegen] =
      Except.ok [Primitive.spheres sphereDegenMerged]
    ∧ merge_primitives [Primitive.spheres sphereDegenMerged] =
        Except.error iterNoneErr :=
  ⟨rfl, rfl⟩

/-- Pruning keeps a numeric entry: if a key looks up to a number in a dict's
items, it still looks up to that number after `remove_defaults`' pruning
pass. -/
theorem lookup_pruneDict (key : String) (q : ℚ) :
    ∀ kvs : List (String × PyVal),
      lookupEntries key kvs = Option.some (PyVal.num q) →
      lookupEntries key (pruneDict kvs) = Option.some (PyVal.num q) := by
  intro kvs
  induction kvs with
  | nil => intro h; simp [lookupEntries] at h
  | cons kv rest ih =>
      obtain ⟨k, v⟩ := kv
      intro h
      by_cases hk : k = key
      · subst hk
        simp only [lookupEntries, if_pos rfl] at h
        cases h
        simp [pruneDict, remove_defaults, lookupEntries]
      · simp only [lookupEntries, if_neg hk] at h
        cases hw : remove_defaults v with
        | none => simpa [pruneDict, hw] using ih h
        | num q2 => simpa [pruneDict, hw, lookupEntries, hk] using ih h
        | str s2 => simpa [pruneDict, hw, lookupEntries, hk] using ih h
        | list xs => simpa [pruneDict, hw, lookupEntries, hk] using ih h
        | dict kvs2 => simpa [pruneDict, hw, lookupEntries, hk] using ih h

/-- Serializing a primitive keeps a numeric entry: a key that looks up to a
number among the raw `asdict` items still looks up to that number on the
output of `scene_to_json`. -/
theorem lookup_scene_prim (p : Primitive) (key : String) (q : ℚ)
    (h : lookupEntries key (primEntries p) = Option.some (PyVal.num q)) :
    pyLookup key (scene_to_json (SNode.prim p)) = Option.some (PyVal.num q) := by
  have h2 := lookup_pruneDict key q (primEntries p) h
  show pyLookup key (remove_defaults (asdict (SNode.prim p))) = Option.some (PyVal.num q)
  have ha : asdict (SNode.prim p) = PyVal.dict (primEntries p) := by
    simp [asdict, primDict]
  rw [ha]
  cases hl : pruneDict (primEntries p) with
  | nil => rw [hl] at h2; simp [lookupEntries] at h2
  | cons a l =>
      rw [hl] at h2
      simpa [remove_defaults, hl, pyLookup] using h2

/-- C8: pruning is based on null-ness, not value-equals-default — on every
primitive kind, a numeric field explicitly holding the literal `0` survives
serialization as `0` (e.g. `phiStart=0` is emitted, not omitted). -/
theorem C8_zero_preserved :
    (∀ s : Spheres, s.phiStart = Option.some 0 →
      pyLookup "phiStart" (scene_to_json (SNode.prim (Primitive.spheres s))) =
        Option.some (PyVal.num 0))
    ∧ (∀ c : Cylinders, c.radius = Option.some 0 →
      pyLookup "radius" (scene_to_json (SNode.prim (Primitive.cylinders c))) =
        Option.some (PyVal.num 0))
    ∧ (∀ c : Cubes, c.width = Option.some 0 →
      pyLookup "width" (scene_to_json (SNode.prim (Primitive.cubes c))) =
        Option.some (PyVal.num 0))
    ∧ (∀ l : Lines, l.lineWidth = Option.some 0 →
      pyLookup "lineWidth" (scene_to_json (SNode.prim (Primitive.lines l))) =
        Option.some (PyVal.num 0))
    ∧ (∀ s : Surface, s.opacity = Option.some 0 →
      pyLookup "opacity" (scene_to_json (SNode.prim (Primitive.surface s))) =
        Option.some (PyVal.num 0))
    ∧ (∀ s : Convex, s.opacity = Option.some 0 →
      pyLookup "opacity" (scene_to_json (SNode.prim (Primitive.convex s))) =
        Option.some (PyVal.num 0)) := by
  refine ⟨?_, ?_, ?_, ?_, ?_, ?_⟩ <;>
    intro x h <;>
    exact lookup_scene_prim _ _ _ (by simp [primEntries, lookupEntries, optNum, h])

/-- C8 witness: concrete primitives with the relevant field set to `0`. -/
theorem C8_zero_preserved_witness :
    pyLookup "phiStart"
      (scene_to_json (SNode.prim (Primitive.spheres { positions := [] }))) =
      Option.some (PyVal.num 0)
    ∧ pyLookup "radius"
      (scene_to_json (SNode.prim (Primitive.cylinders
        { positionPairs := [], radius := Option.some 0 }))) =
      Option.some (PyVal.num 0)
    ∧ pyLookup "width"
      (scene_to_json (SNode.prim (Primitive.cubes
        { positions := [], width := Option.some 0 }))) =
      Option.some (PyVal.num 0)
    ∧ pyLookup "lineWidth"
      (scene_to_json (SNode.prim (Primitive.lines
        { positions := [], lineWidth := Option.some 0 }))) =
      Option.some (PyVal.num 0)
    ∧ pyLookup "opacity"
      (scene_to_json (SNode.prim (Primitive.surface
        { positions := [], opacity := Option.some 0 }))) =
      Option.some (PyVal.num 0)
    ∧ pyLookup "opacity"
      (scene_to_json (SNode.prim (Primitive.convex
        { positions := [], opacity := Option.some 0 }))) =
      Option.some (PyVal.num 0) :=
  ⟨C8_zero_preserved.1 _ rfl, C8_zero_preserved.2.1 _ rfl,
   C8_zero_preserved.2.2.1 _ rfl, C8_zero_preserved.2.2.2.1 _ rfl,
   C8_zero_preserved.2.2.2.2.1 _ rfl, C8_zero_preserved.2.2.2.2.2 _ rfl⟩

/-- C9, counterexample: two `Cylinders` agreeing on `(color, radius)` but
with different `positionPairs` share the hash key string yet are NOT equal —
the dataclass-generated `__eq__` compares all fields, so equality does not
depend only on `(color, radius)`. -/
theorem C9_counterexample :
    Cylinders.hashStr cylA = Cylinders.hashStr cylB ∧ cylA ≠ cylB :=
  ⟨rfl, by decide⟩

/-- C9, amended: the hash of `Cylinders` (resp. `Cubes`) depends only on
`(color, radius)` (resp. `(color, width)`) — instances agreeing there hash
equal regardless of positional data — but equality is full field-wise
dataclass equality, comparing the positional data too. -/
theorem C9_amended :
    (∀ a b : Cylinders, a.color = b.color → a.radius = b.radius →
        Cylinders.hashStr a = Cylinders.hashStr b)
    ∧ (∀ a b : Cubes, a.color = b.color → a.width = b.width →
        Cubes.hashStr a = Cubes.hashStr b)
    ∧ (∀ a b : Cylinders, a = b ↔
        a.positionPairs = b.positionPairs ∧ a.color = b.color ∧ a.radius = b.radius)
    ∧ (∀ a b : Cubes, a = b ↔
        a.positions = b.positions ∧ a.color = b.color ∧ a.width = b.width) := by
  refine ⟨?_, ?_, ?_, ?_⟩
  · intro a b h1 h2; unfold Cylinders.hashStr; rw [h1, h2]
  · intro a b h1 h2; unfold Cubes.hashStr; rw [h1, h2]
  · intro a b
    constructor
    · intro h; subst h; exact ⟨rfl, rfl, rfl⟩
    · intro h; obtain ⟨h1, h2, h3⟩ := h; cases a; cases b; simp_all
  · intro a b
    constructor
    · intro h; subst h; exact ⟨rfl, rfl, rfl⟩
    · intro h; obtain ⟨h1, h2, h3⟩ := h; cases a; cases b; simp_all

/-- C9 witness: the amended statement applied at concrete cylinders and
cubes. -/
theorem C9_amended_witness :
    Cylinders.hashStr cylA = Cylinders.hashStr cylB
    ∧ Cubes.hashStr cubeW = Cubes.hashStr cubeW
    ∧ (cylA = cylA ↔
        cylA.positionPairs = cylA.positionPairs ∧ cylA.color = cylA.color ∧
        cylA.radius = cylA.radius)
    ∧ (cubeW = cubeW ↔
        cubeW.positions = cubeW.positions ∧ cubeW.color = cubeW.color ∧
        cubeW.width = cubeW.width) :=
  ⟨C9_amended.1 cylA cylB rfl rfl, C9_amended.2.1 cubeW cubeW rfl rfl,
   C9_amended.2.2.1 cylA cylA, C9_amended.2.2.2 cubeW cubeW⟩

/-! ### Conservation of positions through `merge_primitives` -/

/-- Coercing a flattened list of lists to a multiset gives the sum of the
coercions of the parts. -/
theorem coe_flatten {α : Type} (L : List (List α)) :
    ((L.flatten : List α) : Multiset α)
      = (List.map (fun l : List α => (l : Multiset α)) L).sum := by
  induction L with
  | nil => rfl
  | cons a L ih =>
      show ((a ++ L.flatten : List α) : Multiset α) = _
      rw [← Multiset.coe_add, ih]
      simp

/-- Appending a member to its group adds exactly its measure to the total
measure over all groups. -/
theorem insertGroup_sum {α γ : Type} (m : α → Multiset γ) (k : String) (x : α) :
    ∀ gs : List (String × List α),
      ((insertGroup k x gs).map fun g => (g.2.map m).sum).sum
        = ((gs.map fun g => (g.2.map m).sum).sum) + m x := by
  intro gs
  induction gs with
  | nil => simp [insertGroup]
  | cons g rest ih =>
      obtain ⟨k2, xs⟩ := g
      by_cases hk : k2 = k
      · simp [insertGroup, hk, List.map_append, List.sum_append, add_assoc,
              add_comm, add_left_comm]
      · simp [insertGroup, hk, ih, add_assoc]

/-- `insertGroup_sum` for sphere groups and positions. -/
theorem insertGroup_spherePos (k : String) (x : Spheres)
    (gs : List (String × List Spheres)) :
    ((insertGroup k x gs).map groupSpherePos).sum
      = (gs.map groupSpherePos).sum + (x.positions : Multiset (List ℚ)) := by
  show ((insertGroup k x gs).map fun g =>
          (g.2.map fun s => (s.positions : Multiset (List ℚ))).sum).sum
      = ((gs.map fun g =>
          (g.2.map fun s => (s.positions : Multiset (List ℚ))).sum).sum)
        + (x.positions : Multiset (List ℚ))
  exact insertGroup_sum _ k x gs

/-- `insertGroup_sum` for cylinder groups and position pairs. -/
theorem insertGroup_cylPairs (k : String) (x : Cylinders)
    (gs : List (String × List Cylinders)) :
    ((insertGroup k x gs).map groupCylPairs).sum
      = (gs.map groupCylPairs).sum + (x.positionPairs : Multiset (List (List ℚ))) := by
  show ((insertGroup k x gs).map fun g =>
          (g.2.map fun c => (c.positionPairs : Multiset (List (List ℚ)))).sum).sum
      = ((gs.map fun g =>
          (g.2.map fun c => (c.positionPairs : Multiset (List (List ℚ)))).sum).sum)
        + (x.positionPairs : Multiset (List (List ℚ)))
  exact insertGroup_sum _ k x gs

/-- `sPosAll` distributes over append. -/
theorem sPosAll_append (a b : List Primitive) :
    sPosAll (a ++ b) = sPosAll a + sPosAll b := by
  simp [sPosAll, List.map_append, List.sum_append]

/-- `cPairsAll` distributes over append. -/
theorem cPairsAll_append (a b : List Primitive) :
    cPairsAll (a ++ b) = cPairsAll a + cPairsAll b := by
  simp [cPairsAll, List.map_append, List.sum_append]

/-- `sPosAll` over a cons. -/
theorem sPosAll_cons (p : Primitive) (ps : List Primitive) :
    sPosAll (p :: ps) = sPos p + sPosAll ps := rfl

/-- `cPairsAll` over a cons. -/
theorem cPairsAll_cons (p : Primitive) (ps : List Primitive) :
    cPairsAll (p :: ps) = cPairs p + cPairsAll ps := rfl

/-- Filtering a cons equals filtering the singleton plus the tail. -/
theorem filter_cons_split (f : Primitive → Bool) (p : Primitive)
    (ps : List Primitive) :
    List.filter f (p :: ps) = List.filter f [p] ++ List.filter f ps := by
  cases hp : f p <;> simp [List.filter_cons, hp]

/-- One classification step moves exactly the stepped primitive's measures
into the accumulator, and appends the primitive to the filtered remainder
exactly when it is a `Cubes`. -/
theorem groupStep_ok (st st2 : MergeAcc) (p : Primitive)
    (h : groupStep st p = Except.ok st2) :
    accSPos st2 = accSPos st + sPos p
    ∧ accCPairs st2 = accCPairs st + cPairs p
    ∧ st2.remainder.filter isCubes
        = st.remainder.filter isCubes ++ [p].filter isCubes := by
  cases p with
  | spheres s =>
      cases hk : sphereKey s with
      | error e => simp [groupStep, hk] at h
      | ok k =>
          simp only [groupStep, hk, Except.ok.injEq] at h
          subst h
          refine ⟨?_, ?_, ?_⟩
          · simp only [accSPos, sPos]
            rw [insertGroup_spherePos, add_right_comm]
          · simp [accCPairs, cPairs]
          · simp [isCubes]
  | cylinders c =>
      cases hk : cylKey c with
      | error e => simp [groupStep, hk] at h
      | ok k =>
          simp only [groupStep, hk, Except.ok.injEq] at h
          subst h
          refine ⟨?_, ?_, ?_⟩
          · simp [accSPos, sPos]
          · simp only [accCPairs, cPairs]
            rw [insertGroup_cylPairs, add_right_comm]
          · simp [isCubes]
  | cubes c =>
      simp only [groupStep, Except.ok.injEq] at h
      subst h
      refine ⟨?_, ?_, ?_⟩
      · simp [accSPos, sPosAll_append, sPosAll, sPos, add_assoc]
      · simp [accCPairs, cPairsAll_append, cPairsAll, cPairs, add_assoc]
      · simp [List.filter_append]
  | lines l =>
      simp only [groupStep, Except.ok.injEq] at h
      subst h
      refine ⟨?_, ?_, ?_⟩
      · simp [accSPos, sPosAll_append, sPosAll, sPos, add_assoc]
      · simp [accCPairs, cPairsAll_append, cPairsAll, cPairs, add_assoc]
      · simp [List.filter_append]
  | surface s =>
      simp only [groupStep, Except.ok.injEq] at h
      subst h
      refine ⟨?_, ?_, ?_⟩
      · simp [accSPos, sPosAll_append, sPosAll, sPos, add_assoc]
      · simp [accCPairs, cPairsAll_append, cPairsAll, cPairs, add_assoc]
      · simp [List.filter_append]
  | convex s =>
      simp only [groupStep, Except.ok.injEq] at h
      subst h
      refine ⟨?_, ?_, ?_⟩
      · simp [accSPos, sPosAll_append, sPosAll, sPos, add_assoc]
      · simp [accCPairs, cPairsAll_append, cPairsAll, cPairs, add_assoc]
      · simp [List.filter_append]
  | arrows =>
      simp only [groupStep, Except.ok.injEq] at h
      subst h
      refine ⟨?_, ?_, ?_⟩
      · simp [accSPos, sPosAll_append, sPosAll, sPos, add_assoc]
      · simp [accCPairs, cPairsAll_append, cPairsAll, cPairs, add_assoc]
      · simp [List.filter_append]
  | labels =>
      simp only [groupStep, Except.ok.injEq] at h
      subst h
      refine ⟨?_, ?_, ?_⟩
      · simp [accSPos, sPosAll_append, sPosAll, sPos, add_assoc]
      · simp [accCPairs, cPairsAll_append, cPairsAll, cPairs, add_assoc]
      · simp [List.filter_append]

/-- Running the whole classification loop adds the input's measures to the
accumulator's, and extends the filtered remainder by the input's `Cubes`. -/
theorem groupAll_ok (ps : List Primitive) : ∀ st acc : MergeAcc,
    groupAll st ps = Except.ok acc →
    accSPos acc = accSPos st + sPosAll ps
    ∧ accCPairs acc = accCPairs st + cPairsAll ps
    ∧ acc.remainder.filter isCubes
        = st.remainder.filter isCubes ++ ps.filter isCubes := by
  induction ps with
  | nil =>
      intro st acc h
      simp only [groupAll, Except.ok.injEq] at h
      subst h
      simp [sPosAll, cPairsAll]
  | cons p rest ih =>
      intro st acc h
      simp only [groupAll] at h
      cases hs : groupStep st p with
      | error e => rw [hs] at h; cases h
      | ok st2 =>
          rw [hs] at h
          obtain ⟨h1, h2, h3⟩ := groupStep_ok st st2 p hs
          obtain ⟨g1, g2, g3⟩ := ih st2 acc h
          refine ⟨?_, ?_, ?_⟩
          · rw [g1, h1, sPosAll_cons, add_assoc]
          · rw [g2, h2, cPairsAll_cons, add_assoc]
          · rw [g3, h3, List.append_assoc, ← filter_cons_split]

/-- A successfully merged sphere group carries exactly the concatenation of
its members' positions. -/
theorem mergeSphereGroup_pos (l : List Spheres) (s : Spheres)
    (h : mergeSphereGroup l = Except.ok s) :
    (s.positions : Multiset (List ℚ))
      = (l.map fun t => (t.positions : Multiset (List ℚ))).sum := by
  cases l with
  | nil => cases h
  | cons s0 rest =>
      simp only [mergeSphereGroup] at h
      split at h
      · cases h
      · split at h
        · cases h
        · simp only [Except.ok.injEq] at h
          subst h
          show (((s0 :: rest).map Spheres.positions).flatten : Multiset (List ℚ)) = _
          rw [coe_flatten, List.map_map]
          rfl

/-- A successfully merged cylinder group carries exactly the concatenation of
its members' position pairs. -/
theorem mergeCylGroup_pairs (l : List Cylinders) (c : Cylinders)
    (h : mergeCylGroup l = Except.ok c) :
    (c.positionPairs : Multiset (List (List ℚ)))
      = (l.map fun t => (t.positionPairs : Multiset (List (List ℚ)))).sum := by
  cases l with
  | nil => cases h
  | cons c0 rest =>
      simp only [mergeCylGroup, Except.ok.injEq] at h
      subst h
      show (((c0 :: rest).map Cylinders.positionPairs).flatten : Multiset (List (List ℚ))) = _
      rw [coe_flatten, List.map_map]
      rfl

/-- Mapping the sphere-group merger over the groups yields primitives that
hold exactly the groups' positions, no cylinder pairs and no `Cubes`. -/
theorem mapME_sphereGroups (gs : List (String × List Spheres)) :
    ∀ ns : List Primitive,
      mapME mergeSphereGroupP gs = Except.ok ns →
      sPosAll ns = (gs.map groupSpherePos).sum
      ∧ cPairsAll ns = 0
      ∧ ns.filter isCubes = [] := by
  induction gs with
  | nil =>
      intro ns h
      simp only [mapME, Except.ok.injEq] at h
      subst h
      simp [sPosAll, cPairsAll]
  | cons g rest ih =>
      intro ns h
      simp only [mapME, mergeSphereGroupP] at h
      cases hm : mergeSphereGroup g.2 with
      | error e => rw [hm] at h; simp at h
      | ok s =>
          rw [hm] at h
          cases hr : mapME mergeSphereGroupP rest with
          | error e => rw [hr] at h; simp at h
          | ok bs =>
              rw [hr] at h
              simp only [Except.ok.injEq] at h
              subst h
              obtain ⟨i1, i2, i3⟩ := ih bs hr
              refine ⟨?_, ?_, ?_⟩
              · have hp := mergeSphereGroup_pos g.2 s hm
                rw [sPosAll_cons, i1]
                show (s.positions : Multiset (List ℚ)) + _ = _
                rw [hp]
                rfl
              · simpa [cPairsAll_cons, cPairs] using i2
              · simpa [isCubes] using i3

/-- Mapping the cylinder-group merger over the groups yields primitives that
hold exactly the groups' position pairs, no sphere positions and no
`Cubes`. -/
theorem mapME_cylGroups (gs : List (String × List Cylinders)) :
    ∀ nc : List Primitive,
      mapME mergeCylGroupP gs = Except.ok nc →
      cPairsAll nc = (gs.map groupCylPairs).sum
      ∧ sPosAll nc = 0
      ∧ nc.filter isCubes = [] := by
  induction gs with
  | nil =>
      intro nc h
      simp only [mapME, Except.ok.injEq] at h
      subst h
      simp [sPosAll, cPairsAll]
  | cons g rest ih =>
      intro nc h
      simp only [mapME, mergeCylGroupP] at h
      cases hm : mergeCylGroup g.2 with
      | error e => rw [hm] at h; simp at h
      | ok c =>
          rw [hm] at h
          cases hr : mapME mergeCylGroupP rest with
          | error e => rw [hr] at h; simp at h
          | ok bs =>
              rw [hr] at h
              simp only [Except.ok.injEq] at h
              subst h
              obtain ⟨i1, i2, i3⟩ := ih bs hr
              refine ⟨?_, ?_, ?_⟩
              · have hp := mergeCylGroup_pairs g.2 c hm
                rw [cPairsAll_cons, i1]
                show (c.positionPairs : Multiset (List (List ℚ))) + _ = _
                rw [hp]
                rfl
              · simpa [sPosAll_cons, sPos] using i2
              · simpa [isCubes] using i3

/-- Decomposition of a successful merge: sphere positions and cylinder
position pairs are conserved as multisets, and the `Cubes` sublist is passed
through unchanged. -/
theorem merge_ok_parts (ps ys : List Primitive)
    (h : merge_primitives ps = Except.ok ys) :
    sPosAll ys = sPosAll ps
    ∧ cPairsAll ys = cPairsAll ps
    ∧ ys.filter isCubes = ps.filter isCubes := by
  simp only [merge_primitives] at h
  split at h
  · cases h
  next acc hg =>
    split at h
    · cases h
    next ns hn =>
      split at h
      · cases h
      next nc hc =>
        simp only [Except.ok.injEq] at h
        subst h
        obtain ⟨a1, a2, a3⟩ := groupAll_ok ps ⟨[], [], []⟩ acc hg
        obtain ⟨n1, n2, n3⟩ := mapME_sphereGroups acc.spheres ns hn
        obtain ⟨c1, c2, c3⟩ := mapME_cylGroups acc.cylinders nc hc
        have a1s : accSPos acc = sPosAll ps := by
          rw [a1]; simp [accSPos, sPosAll]
        have a2s : accCPairs acc = cPairsAll ps := by
          rw [a2]; simp [accCPairs, cPairsAll]
        have a3s : acc.remainder.filter isCubes = ps.filter isCubes := by
          rw [a3]; simp
        refine ⟨?_, ?_, ?_⟩
        · rw [sPosAll_append, sPosAll_append, n1, c2, add_zero, ← a1s]
          rfl
        · rw [cPairsAll_append, cPairsAll_append, c1, n2, zero_add, ← a2s]
          rfl
        · rw [List.filter_append, List.filter_append, n3, c3, a3s]
          rfl

/-- C6: merge conservation — whenever `merge_primitives` returns, the
multiset of position vectors over all `Spheres` of the output equals that of
the input, and likewise the multiset of position pairs over all `Cylinders`;
positions are concatenated, never altered. -/
theorem C6_conservation (ps ys : List Primitive)
    (h : merge_primitives ps = Except.ok ys) :
    sPosAll ys = sPosAll ps ∧ cPairsAll ys = cPairsAll ps :=
  ⟨(merge_ok_parts ps ys h).1, (merge_ok_parts ps ys h).2.1⟩

/-- C6 witness: the conservation theorem applied to a concrete four-element
list (two mergeable spheres, a cylinder, a cube). -/
theorem C6_conservation_witness :
    sPosAll ysW = sPosAll xsW ∧ cPairsAll ysW = cPairsAll xsW :=
  C6_conservation xsW ysW rfl

/-- C10: although `Cubes` carries the same discriminant tag `"spheres"` as
`Spheres`, `merge_primitives` dispatches on the concrete variant, so every
`Cubes` of the input is passed through to the output unchanged (the filtered
`Cubes` sublists of input and output coincide, order included). -/
theorem C10_cubes_passthrough :
    (∀ c : Cubes, primType (Primitive.cubes c) = "spheres")
    ∧ ∀ ps ys : List Primitive, merge_primitives ps = Except.ok ys →
        ys.filter isCubes = ps.filter isCubes :=
  ⟨fun _ => rfl, fun ps ys h => (merge_ok_parts ps ys h).2.2⟩

/-- C10 witness: the pass-through theorem applied to the concrete list `xsW`
containing a cube among spheres and a cylinder. -/
theorem C10_cubes_passthrough_witness :
    primType (Primitive.cubes cubeW) = "spheres"
    ∧ ysW.filter isCubes = xsW.filter isCubes :=
  ⟨C10_cubes_passthrough.1 cubeW, C10_cubes_passthrough.2 xsW ysW rfl⟩

end CT
